import Mathlib

/-!
Verification development for the GLB skeleton-rigging tool
(`tools/add_skeleton.py`): a shallow embedding of the container codec
(`read_glb` / `write_glb`), the payload append primitive
(`add_to_buffer`), the skeleton builder (`create_humanoid_skeleton`),
the skin-weight solver (`compute_skin_weights`), the animation
synthesizer (`create_animations`) and the orchestrating pipeline
(`add_skeleton_to_glb`), together with theorems about them.

Machine reals (`float`/`np.float32`) are modelled by `ℝ`; byte strings
by `List Nat` (each entry one byte); the Python `json` module by a
small JSON document type `Json` with a serializer `dumps` (compact
separators, as the tool requests) and a fuel-based parser `loads`.
-/

namespace Glb

/-- Little-endian 32-bit read of the first four bytes of a list (one
`'<I'` field of `struct.unpack`); missing bytes read as 0 — callers guard
lengths first, mirroring `struct.unpack` which demands an exact-size buffer. -/
def le4 (bs : List Nat) : Nat :=
  bs.getD 0 0 + 256 * bs.getD 1 0 + 65536 * bs.getD 2 0 + 16777216 * bs.getD 3 0

/-- Little-endian 32-bit write (`struct.pack` of an `I` field, value taken
modulo 2^32). -/
def toLE4 (n : Nat) : List Nat :=
  [n % 256, n / 256 % 256, n / 65536 % 256, n / 16777216 % 256]

theorem toLE4_length (n : Nat) : (toLE4 n).length = 4 := rfl

theorem le4_toLE4 (n : Nat) (h : n < 4294967296) : le4 (toLE4 n) = n := by
  simp [toLE4, le4]
  omega

theorem le4_toLE4_append (n : Nat) (rest : List Nat) (h : n < 4294967296) :
    le4 (toLE4 n ++ rest) = n := by
  simp [toLE4, le4]
  omega

mutual

/-- JSON documents as handled by the Python `json` module, restricted to the
value forms the tool reads and writes (numbers are integers; the glTF
documents whose round trip any claim inspects contain no float literals).
Strings are byte lists of character codes.  The array and object payloads
are the mutually defined list types below so that every function on
documents is structurally recursive and kernel-reducible. -/
inductive Json where
  | null : Json
  | bool (b : Bool) : Json
  | num (n : Int) : Json
  | str (s : List Nat) : Json
  | arr (xs : JsonList) : Json
  | obj (kvs : JsonKVs) : Json

/-- A list of JSON values (an array body). -/
inductive JsonList where
  | nil : JsonList
  | cons (x : Json) (l : JsonList) : JsonList

/-- A list of key/value pairs (an object body). -/
inductive JsonKVs where
  | nil : JsonKVs
  | cons (k : List Nat) (v : Json) (l : JsonKVs) : JsonKVs

end

/-- ASCII decimal digit test (codes 48–57). -/
def isDigitByte (c : Nat) : Bool := 48 ≤ c && c ≤ 57

/-- Little-endian decimal digits of `n`, with explicit fuel so the kernel
can evaluate it (equal to `Nat.digits 10 n` once the fuel covers `n`). -/
def natDigitsRev : Nat → Nat → List Nat
  | 0, _ => []
  | fuel + 1, n => if n = 0 then [] else n % 10 :: natDigitsRev fuel (n / 10)

/-- Decimal rendering of a natural number (ASCII digit bytes). -/
def natToBytes (n : Nat) : List Nat :=
  if n = 0 then [48] else (natDigitsRev n n).reverse.map (fun d => d + 48)

/-- Decimal rendering of an integer, as `json.dumps` prints Python ints. -/
def intToBytes (i : Int) : List Nat :=
  if i < 0 then 45 :: natToBytes i.natAbs else natToBytes i.toNat

/-- String-body escaping as `json.dumps` performs it for the characters the
well-formedness predicate admits: only `"` (34) and `\` (92) need escapes. -/
def escBody (s : List Nat) : List Nat :=
  (s.map (fun c => if c = 34 ∨ c = 92 then [92, c] else [c])).flatten

/-- A quoted JSON string. -/
def dumpStr (s : List Nat) : List Nat := 34 :: escBody s ++ [34]

mutual

/-- Serialization of a document with compact separators, as the tool's
`json.dumps(gltf, separators=(',', ':'))` call produces. -/
def dumps : Json → List Nat
  | .null => [110, 117, 108, 108]
  | .bool true => [116, 114, 117, 101]
  | .bool false => [102, 97, 108, 115, 101]
  | .num i => intToBytes i
  | .str s => dumpStr s
  | .arr xs => 91 :: (dumpsList xs ++ [93])
  | .obj kvs => 123 :: (dumpsKVList kvs ++ [125])
termination_by structural j => j

/-- Comma-separated serialization of an array body. -/
def dumpsList : JsonList → List Nat
  | .nil => []
  | .cons x l =>
    dumps x ++
      (match l with
       | .nil => []
       | .cons _ _ => 44 :: dumpsList l)
termination_by structural xs => xs

/-- Comma-separated serialization of an object body. -/
def dumpsKVList : JsonKVs → List Nat
  | .nil => []
  | .cons k v l =>
    dumpStr k ++ 58 :: dumps v ++
      (match l with
       | .nil => []
       | .cons _ _ _ => 44 :: dumpsKVList l)
termination_by structural kvs => kvs

end

/-- Well-formed string body: printable ASCII. (`json.dumps` would emit
`\uXXXX` escapes outside this range, which the model does not cover.) -/
def wfStrB (s : List Nat) : Bool := s.all (fun c => 32 ≤ c && c ≤ 126)

mutual

/-- Documents on which the serializer model is faithful to `json.dumps`. -/
def wfJson : Json → Bool
  | .null => true
  | .bool _ => true
  | .num _ => true
  | .str s => wfStrB s
  | .arr xs => wfJList xs
  | .obj kvs => wfJKVs kvs
termination_by structural j => j

/-- Well-formedness of an array body. -/
def wfJList : JsonList → Bool
  | .nil => true
  | .cons x l => wfJson x && wfJList l
termination_by structural xs => xs

/-- Well-formedness of an object body. -/
def wfJKVs : JsonKVs → Bool
  | .nil => true
  | .cons k v l => wfStrB k && wfJson v && wfJKVs l
termination_by structural kvs => kvs

end

/-- Fold ASCII digits into a natural number (most significant first). -/
def natFromDigits (ds : List Nat) : Nat := ds.foldl (fun a d => a * 10 + (d - 48)) 0

/-- Parse a maximal run of decimal digits (`json` number scanning restricted
to the integer literals the serializer model emits). -/
def parseNat (input : List Nat) : Option (Nat × List Nat) :=
  let ds := input.takeWhile isDigitByte
  if ds.isEmpty then none else some (natFromDigits ds, input.drop ds.length)

/-- Parse a string body after the opening quote, handling the `\"` and `\\`
escapes the serializer model can emit. -/
def parseStrBody : List Nat → Option (List Nat × List Nat)
  | [] => none
  | c :: rest =>
    if c = 34 then some ([], rest)
    else if c = 92 then
      match rest with
      | [] => none
      | c2 :: rest2 =>
        if c2 = 34 ∨ c2 = 92 then (parseStrBody rest2).map (fun p => (c2 :: p.1, p.2))
        else none
    else (parseStrBody rest).map (fun p => (c :: p.1, p.2))

mutual

/-- Fuel-based JSON value parser modelling `json.loads` on the documents the
codec exchanges (no whitespace between tokens, as the compact serializer
emits none; `loads` itself strips leading and trailing whitespace). -/
def parseVal : Nat → List Nat → Option (Json × List Nat)
  | 0, _ => none
  | fuel + 1, input =>
    match input with
    | [] => none
    | c :: rest =>
      if c = 110 then
        match rest with
        | 117 :: 108 :: 108 :: r => some (.null, r)
        | _ => none
      else if c = 116 then
        match rest with
        | 114 :: 117 :: 101 :: r => some (.bool true, r)
        | _ => none
      else if c = 102 then
        match rest with
        | 97 :: 108 :: 115 :: 101 :: r => some (.bool false, r)
        | _ => none
      else if c = 34 then (parseStrBody rest).map (fun p => (Json.str p.1, p.2))
      else if c = 91 then
        if rest.head? = some 93 then some (.arr .nil, rest.tail)
        else (parseItems fuel rest).map (fun p => (Json.arr p.1, p.2))
      else if c = 123 then
        if rest.head? = some 125 then some (.obj .nil, rest.tail)
        else (parseKVs fuel rest).map (fun p => (Json.obj p.1, p.2))
      else if c = 45 then (parseNat rest).map (fun p => (Json.num (-(p.1 : Int)), p.2))
      else (parseNat input).map (fun p => (Json.num (p.1 : Int), p.2))
termination_by structural fuel _ => fuel

/-- Parse the body of a nonempty array up to and including the closing `]`. -/
def parseItems : Nat → List Nat → Option (JsonList × List Nat)
  | 0, _ => none
  | fuel + 1, input =>
    match parseVal fuel input with
    | none => none
    | some (v, rest) =>
      if rest.head? = some 44 then
        (parseItems fuel rest.tail).map (fun p => (JsonList.cons v p.1, p.2))
      else if rest.head? = some 93 then some (.cons v .nil, rest.tail)
      else none
termination_by structural fuel _ => fuel

/-- Parse the body of a nonempty object up to and including the closing
brace (code 125). -/
def parseKVs : Nat → List Nat → Option (JsonKVs × List Nat)
  | 0, _ => none
  | fuel + 1, input =>
    if input.head? = some 34 then
      match parseStrBody input.tail with
      | none => none
      | some (k, rest2) =>
        if rest2.head? = some 58 then
          match parseVal fuel rest2.tail with
          | none => none
          | some (v, rest4) =>
            if rest4.head? = some 44 then
              (parseKVs fuel rest4.tail).map (fun p => (JsonKVs.cons k v p.1, p.2))
            else if rest4.head? = some 125 then some (.cons k v .nil, rest4.tail)
            else none
        else none
    else none
termination_by structural fuel _ => fuel

end

/-- Whitespace bytes `json.loads` skips. -/
def isWsByte (c : Nat) : Bool := c = 32 || c = 9 || c = 10 || c = 13

/-- Drop leading whitespace. -/
def skipWs (bs : List Nat) : List Nat := bs.dropWhile isWsByte

/-- Model of `json.loads`: strip surrounding whitespace, parse exactly one
value, and demand that nothing but whitespace remains. -/
def loads (bs : List Nat) : Option Json :=
  match parseVal (bs.length + 1) (skipWs bs) with
  | some (v, rest) => if skipWs rest = [] then some v else none
  | none => none

/-- Errors `read_glb` can raise: the explicit `ValueError` for a bad magic,
`struct.error` when `struct.unpack` receives too few bytes, and the
`json.JSONDecodeError` for an unparsable structured chunk. -/
inductive GlbErr where
  | badMagic : GlbErr
  | structError : GlbErr
  | jsonError : GlbErr

/-- The `'glTF'` magic constant 0x46546C67. -/
def glbMagic : Nat := 0x46546C67

/-- The JSON chunk tag 0x4E4F534A. -/
def jsonChunkTag : Nat := 0x4E4F534A

/-- The BIN chunk tag 0x004E4942. -/
def binChunkTag : Nat := 0x004E4942

/-- Model of `read_glb`: parse the 12-byte header, validate the magic,
read the JSON chunk, and read the binary chunk when the file position after
the JSON chunk is still below the declared total length.  File reads are
Python `f.read` semantics: a short read returns the available bytes, and
`struct.unpack` fails on a short buffer. -/
def read_glb (bs : List Nat) : Except GlbErr (Json × List Nat) :=
  let hdr := bs.take 12
  if hdr.length < 12 then .error .structError
  else
    let magic := le4 hdr
    let declaredLength := le4 (hdr.drop 8)
    if magic ≠ glbMagic then .error .badMagic
    else
      let ch := (bs.drop 12).take 8
      if ch.length < 8 then .error .structError
      else
        let chunkLen := le4 ch
        let jsonBytes := ((bs.drop 12).drop 8).take chunkLen
        match loads jsonBytes with
        | none => .error .jsonError
        | some doc =>
          let pos := min (20 + chunkLen) bs.length
          if pos < declaredLength then
            let ch2 := (bs.drop pos).take 8
            if ch2.length < 8 then .error .structError
            else
              let chunkLen2 := le4 ch2
              .ok (doc, ((bs.drop pos).drop 8).take chunkLen2)
          else .ok (doc, [])

/-- Pad a byte string to 4-byte alignment with spaces (the JSON chunk pad). -/
def padSpaces4 (bs : List Nat) : List Nat :=
  bs ++ List.replicate ((4 - bs.length % 4) % 4) 32

/-- Pad a byte string to 4-byte alignment with zero bytes (the BIN pad). -/
def padZeros4 (bs : List Nat) : List Nat :=
  bs ++ List.replicate ((4 - bs.length % 4) % 4) 0

/-- Model of `write_glb`: serialize the document, pad the JSON chunk with
spaces and the binary chunk with zeros to 4-byte alignment, and emit
header, JSON chunk and binary chunk with little-endian length fields. -/
def write_glb (gltf : Json) (bin : List Nat) : List Nat :=
  let jsonStr := padSpaces4 (dumps gltf)
  let binPadded := padZeros4 bin
  let totalLength := 12 + 8 + jsonStr.length + 8 + binPadded.length
  toLE4 glbMagic ++ toLE4 2 ++ toLE4 totalLength ++
    toLE4 jsonStr.length ++ toLE4 jsonChunkTag ++ jsonStr ++
    toLE4 binPadded.length ++ toLE4 binChunkTag ++ binPadded

end Glb

namespace Glb

theorem natFromDigits_map_add48 (L : List Nat) (acc : Nat) :
    (L.map (fun d => d + 48)).foldl (fun a d => a * 10 + (d - 48)) acc =
      L.foldl (fun a d => a * 10 + d) acc := by
  induction L generalizing acc with
  | nil => rfl
  | cons d L ih => simp [ih]

theorem foldr_horner (L : List Nat) :
    L.foldr (fun d a => a * 10 + d) 0 = Nat.ofDigits 10 L := by
  induction L with
  | nil => simp [Nat.ofDigits]
  | cons d L ih => simp [Nat.ofDigits_cons, ih]; ring

theorem natDigitsRev_eq_digits (fuel n : Nat) (h : n ≤ fuel) :
    natDigitsRev fuel n = Nat.digits 10 n := by
  induction fuel generalizing n with
  | zero =>
    interval_cases n
    simp [natDigitsRev]
  | succ f ih =>
    by_cases hn : n = 0
    · subst hn; simp [natDigitsRev]
    · rw [natDigitsRev, if_neg hn, Nat.digits_def' (by norm_num) (Nat.pos_of_ne_zero hn),
        ih (n / 10) (by omega)]

theorem natFromDigits_natToBytes (n : Nat) : natFromDigits (natToBytes n) = n := by
  by_cases h : n = 0
  · subst h; rfl
  · simp only [natToBytes, if_neg h, natFromDigits, natDigitsRev_eq_digits n n le_rfl]
    rw [List.map_reverse, List.foldl_reverse, List.foldr_map]
    simp only [Nat.add_sub_cancel]
    rw [foldr_horner, Nat.ofDigits_digits]

theorem natToBytes_all_digits (n : Nat) : ∀ c ∈ natToBytes n, isDigitByte c = true := by
  intro c hc
  by_cases h : n = 0
  · subst h; simp [natToBytes] at hc; subst hc; rfl
  · simp only [natToBytes, if_neg h, natDigitsRev_eq_digits n n le_rfl, List.mem_map,
      List.mem_reverse] at hc
    obtain ⟨d, hd, rfl⟩ := hc
    have := Nat.digits_lt_base (by norm_num) hd
    simp [isDigitByte]
    omega

theorem natToBytes_ne_nil (n : Nat) : natToBytes n ≠ [] := by
  by_cases h : n = 0
  · subst h; simp [natToBytes]
  · simp only [natToBytes, if_neg h, natDigitsRev_eq_digits n n le_rfl]
    simp [Nat.digits_ne_nil_iff_ne_zero, h]

/-- The next byte, if any, does not continue a decimal-digit run. -/
def headNd (bs : List Nat) : Prop :=
  ∀ c, bs.head? = some c → isDigitByte c = false

theorem takeWhile_append_all {p : Nat → Bool} (l r : List Nat)
    (hl : ∀ c ∈ l, p c = true) (hr : ∀ c, r.head? = some c → p c = false) :
    (l ++ r).takeWhile p = l := by
  induction l with
  | nil =>
    simp only [List.nil_append]
    cases r with
    | nil => rfl
    | cons c r => simp [List.takeWhile, hr c rfl]
  | cons c l ih =>
    simp only [List.cons_append, List.takeWhile]
    rw [hl c (by simp)]
    simp [ih (fun d hd => hl d (by simp [hd]))]

theorem parseNat_spec (n : Nat) (rest : List Nat) (h : headNd rest) :
    parseNat (natToBytes n ++ rest) = some (n, rest) := by
  have htw : ((natToBytes n ++ rest).takeWhile isDigitByte) = natToBytes n :=
    takeWhile_append_all _ _ (natToBytes_all_digits n) h
  simp only [parseNat, htw, List.isEmpty_iff, natToBytes_ne_nil n, if_neg,
    natFromDigits_natToBytes, List.drop_left]
  simp [natToBytes_ne_nil n]

end Glb

namespace Glb

theorem parseStrBody_spec (s rest : List Nat) (h : wfStrB s = true) :
    parseStrBody (escBody s ++ 34 :: rest) = some (s, rest) := by
  induction s with
  | nil =>
    have h0 : escBody [] ++ 34 :: rest = 34 :: rest := rfl
    rw [h0, parseStrBody.eq_def]
    simp
  | cons c s ih =>
    simp only [wfStrB, List.all_cons, Bool.and_eq_true, decide_eq_true_eq] at h
    obtain ⟨⟨hc1, hc2⟩, hs⟩ := h
    have ihs := ih (by simpa [wfStrB] using hs)
    by_cases hesc : c = 34 ∨ c = 92
    · have h1 : escBody (c :: s) = 92 :: c :: escBody s := by
        simp [escBody, if_pos hesc]
      rw [h1, List.cons_append, List.cons_append, parseStrBody.eq_def]
      simp [hesc, ihs]
    · have h1 : escBody (c :: s) = c :: escBody s := by
        simp [escBody, if_neg hesc]
      rw [h1, List.cons_append, parseStrBody.eq_def]
      push_neg at hesc
      simp [hesc.1, hesc.2, ihs]

mutual

/-- Parser fuel sufficient for a serialized value. -/
def fuelVal : Json → Nat
  | .null => 1
  | .bool _ => 1
  | .num _ => 1
  | .str _ => 1
  | .arr xs => fuelList xs + 1
  | .obj kvs => fuelKVList kvs + 1
termination_by structural j => j

/-- Parser fuel sufficient for a serialized array body. -/
def fuelList : JsonList → Nat
  | .nil => 0
  | .cons x l => fuelVal x + fuelList l + 1
termination_by structural xs => xs

/-- Parser fuel sufficient for a serialized object body. -/
def fuelKVList : JsonKVs → Nat
  | .nil => 0
  | .cons _ v l => fuelVal v + fuelKVList l + 1
termination_by structural kvs => kvs

end

theorem fuelVal_pos (j : Json) : 1 ≤ fuelVal j := by
  cases j <;> simp [fuelVal]

/-- Every serialized document is nonempty and starts with a byte that is not
whitespace, not a closing bracket or brace, and not a comma. -/
theorem dumps_head (j : Json) : ∃ c cs, dumps j = c :: cs ∧ c ≠ 93 ∧ c ≠ 125 ∧
    c ≠ 44 ∧ isWsByte c = false := by
  cases j with
  | null => exact ⟨110, _, rfl, by norm_num, by norm_num, by norm_num, rfl⟩
  | bool b => cases b with
    | true => exact ⟨116, _, rfl, by norm_num, by norm_num, by norm_num, rfl⟩
    | false => exact ⟨102, _, rfl, by norm_num, by norm_num, by norm_num, rfl⟩
  | num i =>
    by_cases hi : i < 0
    · refine ⟨45, natToBytes i.natAbs, ?_, by norm_num, by norm_num, by norm_num, rfl⟩
      simp [dumps, intToBytes, hi]
    · obtain ⟨c, cs, hcs⟩ := List.exists_cons_of_ne_nil (natToBytes_ne_nil i.toNat)
      have hdig := natToBytes_all_digits i.toNat c (by simp [hcs])
      simp only [isDigitByte, Bool.and_eq_true, decide_eq_true_eq] at hdig
      refine ⟨c, cs, ?_, by omega, by omega, by omega, ?_⟩
      · rw [show dumps (.num i) = natToBytes i.toNat by simp [dumps, intToBytes, hi], hcs]
      · simp only [isWsByte, Bool.or_eq_false_iff, decide_eq_false_iff_not]
        omega
  | str s => exact ⟨34, _, rfl, by norm_num, by norm_num, by norm_num, rfl⟩
  | arr xs => exact ⟨91, _, rfl, by norm_num, by norm_num, by norm_num, rfl⟩
  | obj kvs => exact ⟨123, _, rfl, by norm_num, by norm_num, by norm_num, rfl⟩

end Glb

namespace Glb

theorem intToBytes_ne_nil (i : Int) : intToBytes i ≠ [] := by
  by_cases hi : i < 0
  · simp [intToBytes, hi]
  · simp [intToBytes, hi, natToBytes_ne_nil]

mutual

theorem fuelVal_le (j : Json) : fuelVal j ≤ (dumps j).length := by
  cases j with
  | null => simp [fuelVal, dumps]
  | bool b => cases b <;> simp [fuelVal, dumps]
  | num i =>
    have := intToBytes_ne_nil i
    have : 0 < (intToBytes i).length := List.length_pos.mpr this
    simp only [fuelVal, dumps]
    omega
  | str s => simp [fuelVal, dumps, dumpStr]
  | arr xs =>
    have := fuelList_le xs
    simp only [fuelVal, dumps, List.length_cons, List.length_append]
    omega
  | obj kvs =>
    have := fuelKVList_le kvs
    simp only [fuelVal, dumps, List.length_cons, List.length_append]
    omega
termination_by structural j

theorem fuelList_le (xs : JsonList) : fuelList xs ≤ (dumpsList xs).length + 1 := by
  cases xs with
  | nil => simp [fuelList]
  | cons x l =>
    have hx := fuelVal_le x
    have hl := fuelList_le l
    cases l with
    | nil =>
      simp only [fuelList, dumpsList, List.append_nil]
      simp only [fuelList] at hl ⊢
      omega
    | cons y l2 =>
      simp only [fuelList, dumpsList, List.length_append, List.length_cons] at hl ⊢
      omega
termination_by structural xs

theorem fuelKVList_le (kvs : JsonKVs) : fuelKVList kvs ≤ (dumpsKVList kvs).length + 1 := by
  cases kvs with
  | nil => simp [fuelKVList]
  | cons k v l =>
    have hv := fuelVal_le v
    have hl := fuelKVList_le l
    cases l with
    | nil =>
      simp only [fuelKVList, dumpsKVList, List.append_nil, dumpStr, List.length_append,
        List.length_cons, fuelKVList] at hl ⊢
      omega
    | cons k2 v2 l2 =>
      simp only [fuelKVList, dumpsKVList, dumpStr, List.length_append, List.length_cons] at hl ⊢
      omega
termination_by structural kvs

end

end Glb

namespace Glb

theorem headNd_cons (c : Nat) (r : List Nat) (h : isDigitByte c = false) : headNd (c :: r) := by
  intro c' hc'
  simp only [List.head?_cons, Option.some.injEq] at hc'
  subst hc'
  exact h

theorem dumpsList_cons_ne_nil (x : Json) (l : JsonList) : dumpsList (.cons x l) ≠ [] := by
  obtain ⟨c, cs, hc, _, _, _, _⟩ := dumps_head x
  cases l <;> simp [dumpsList, hc]

theorem dumpsList_cons_head_ne (x : Json) (l : JsonList) (b : Nat)
    (hb : b = 93 ∨ b = 125 ∨ b = 44) : (dumpsList (.cons x l)).head? ≠ some b := by
  obtain ⟨c, cs, hc, h1, h2, h3, _⟩ := dumps_head x
  cases l <;> simp [dumpsList, hc] <;> omega

theorem dumpsKVList_cons_ne_nil (k : List Nat) (v : Json) (l : JsonKVs) :
    dumpsKVList (.cons k v l) ≠ [] := by
  cases l <;> simp [dumpsKVList, dumpStr]

theorem dumpsKVList_cons_head (k : List Nat) (v : Json) (l : JsonKVs) :
    (dumpsKVList (.cons k v l)).head? = some 34 := by
  cases l <;> simp [dumpsKVList, dumpStr]

/-- Joint statement of parser correctness on serializer output, proved by
strong induction on the fuel. -/
theorem parse_dumps_main (n : Nat) :
    (∀ j rest, wfJson j = true → headNd rest → fuelVal j ≤ n →
       parseVal n (dumps j ++ rest) = some (j, rest)) ∧
    (∀ x l rest, wfJson x = true → wfJList l = true → fuelList (.cons x l) ≤ n →
       parseItems n (dumpsList (.cons x l) ++ 93 :: rest) = some (.cons x l, rest)) ∧
    (∀ k v l rest, wfStrB k = true → wfJson v = true → wfJKVs l = true →
       fuelKVList (.cons k v l) ≤ n →
       parseKVs n (dumpsKVList (.cons k v l) ++ 125 :: rest) = some (.cons k v l, rest)) := by
  induction n using Nat.strong_induction_on with
  | _ n ih =>
  refine ⟨?_, ?_, ?_⟩
  · -- values
    intro j rest hwf hrest hfuel
    match n, hfuel with
    | 0, hfuel => exact absurd hfuel (by have := fuelVal_pos j; omega)
    | m + 1, hfuel =>
    cases j with
    | null =>
      rw [show dumps .null ++ rest = 110 :: 117 :: 108 :: 108 :: rest from rfl,
        parseVal.eq_def]
      simp
    | bool b =>
      cases b with
      | true =>
        rw [show dumps (.bool true) ++ rest = 116 :: 114 :: 117 :: 101 :: rest from rfl,
          parseVal.eq_def]
        simp
      | false =>
        rw [show dumps (.bool false) ++ rest = 102 :: 97 :: 108 :: 115 :: 101 :: rest from rfl,
          parseVal.eq_def]
        simp
    | num i =>
      by_cases hi : i < 0
      · rw [show dumps (.num i) ++ rest = 45 :: (natToBytes i.natAbs ++ rest) by
          simp [dumps, intToBytes, hi], parseVal.eq_def]
        norm_num
        rw [parseNat_spec i.natAbs rest hrest]
        simp [abs_of_neg hi]
      · rw [show dumps (.num i) ++ rest = natToBytes i.toNat ++ rest by
          simp [dumps, intToBytes, hi]]
        obtain ⟨c, cs, hc⟩ := List.exists_cons_of_ne_nil (natToBytes_ne_nil i.toNat)
        have hdig := natToBytes_all_digits i.toNat c (by simp [hc])
        simp only [isDigitByte, Bool.and_eq_true, decide_eq_true_eq] at hdig
        rw [show natToBytes i.toNat ++ rest = c :: (cs ++ rest) by rw [hc]; rfl,
          parseVal.eq_def]
        have h110 : ¬c = 110 := by omega
        have h116 : ¬c = 116 := by omega
        have h102 : ¬c = 102 := by omega
        have h34 : ¬c = 34 := by omega
        have h91 : ¬c = 91 := by omega
        have h123 : ¬c = 123 := by omega
        have h45 : ¬c = 45 := by omega
        simp only [h110, h116, h102, h34, h91, h123, h45, if_false]
        rw [show c :: (cs ++ rest) = natToBytes i.toNat ++ rest by rw [hc]; rfl]
        rw [parseNat_spec i.toNat rest hrest]
        simp [Int.toNat_of_nonneg (by omega : (0 : Int) ≤ i)]
    | str s =>
      rw [show dumps (.str s) ++ rest = 34 :: (escBody s ++ 34 :: rest) by
        simp [dumps, dumpStr], parseVal.eq_def]
      simp [parseStrBody_spec s rest (by simpa [wfJson] using hwf)]
    | arr xs =>
      cases xs with
      | nil =>
        rw [show dumps (.arr .nil) ++ rest = 91 :: 93 :: rest from rfl, parseVal.eq_def]
        simp
      | cons x l =>
        rw [show dumps (.arr (.cons x l)) ++ rest =
            91 :: (dumpsList (.cons x l) ++ 93 :: rest) by simp [dumps], parseVal.eq_def]
        have hwx : wfJson x = true := by
          have h2 : wfJList (.cons x l) = true := by simpa [wfJson] using hwf
          simp only [wfJList, Bool.and_eq_true] at h2
          exact h2.1
        have hwl : wfJList l = true := by
          have h2 : wfJList (.cons x l) = true := by simpa [wfJson] using hwf
          simp only [wfJList, Bool.and_eq_true] at h2
          exact h2.2
        have hfl : fuelList (.cons x l) ≤ m := by
          simp only [fuelVal] at hfuel
          omega
        have hit := (ih m (by omega)).2.1 x l rest hwx hwl hfl
        simp [hit, dumpsList_cons_head_ne x l 93 (Or.inl rfl), dumpsList_cons_ne_nil x l]
    | obj kvs =>
      cases kvs with
      | nil =>
        rw [show dumps (.obj .nil) ++ rest = 123 :: 125 :: rest from rfl, parseVal.eq_def]
        simp
      | cons k v l =>
        rw [show dumps (.obj (.cons k v l)) ++ rest =
            123 :: (dumpsKVList (.cons k v l) ++ 125 :: rest) by simp [dumps], parseVal.eq_def]
        have hw : wfStrB k = true ∧ wfJson v = true ∧ wfJKVs l = true := by
          have h2 : wfJKVs (.cons k v l) = true := by simpa [wfJson] using hwf
          simpa [wfJKVs, Bool.and_eq_true, and_assoc] using h2
        have hfl : fuelKVList (.cons k v l) ≤ m := by
          simp only [fuelVal] at hfuel
          omega
        have hkv := (ih m (by omega)).2.2 k v l rest hw.1 hw.2.1 hw.2.2 hfl
        simp [hkv, dumpsKVList_cons_head k v l, dumpsKVList_cons_ne_nil k v l]
  · -- array bodies
    intro x l rest hwx hwl hfuel
    match n, hfuel with
    | 0, hfuel => exact absurd hfuel (by simp only [fuelList]; omega)
    | m + 1, hfuel =>
    have hfx : fuelVal x ≤ m := by
      simp only [fuelList] at hfuel
      omega
    cases l with
    | nil =>
      rw [show dumpsList (.cons x .nil) ++ 93 :: rest = dumps x ++ 93 :: rest by
        simp [dumpsList], parseItems.eq_def]
      have hv := (ih m (by omega)).1 x (93 :: rest) hwx (headNd_cons 93 rest rfl) hfx
      simp [hv]
    | cons y l2 =>
      rw [show dumpsList (.cons x (.cons y l2)) ++ 93 :: rest =
          dumps x ++ 44 :: (dumpsList (.cons y l2) ++ 93 :: rest) by
        simp [dumpsList], parseItems.eq_def]
      have hv := (ih m (by omega)).1 x (44 :: (dumpsList (.cons y l2) ++ 93 :: rest)) hwx
        (headNd_cons 44 _ rfl) hfx
      have hwl2 : wfJson y = true ∧ wfJList l2 = true := by
        simpa [wfJList, Bool.and_eq_true] using hwl
      have hfl2 : fuelList (.cons y l2) ≤ m := by
        simp only [fuelList] at hfuel ⊢
        omega
      have hit := (ih m (by omega)).2.1 y l2 rest hwl2.1 hwl2.2 hfl2
      simp [hv, hit]
  · -- object bodies
    intro k v l rest hwk hwv hwl hfuel
    match n, hfuel with
    | 0, hfuel => exact absurd hfuel (by simp only [fuelKVList]; omega)
    | m + 1, hfuel =>
    have hfv : fuelVal v ≤ m := by
      simp only [fuelKVList] at hfuel
      omega
    cases l with
    | nil =>
      rw [show dumpsKVList (.cons k v .nil) ++ 125 :: rest =
          34 :: (escBody k ++ 34 :: (58 :: (dumps v ++ 125 :: rest))) by
        simp [dumpsKVList, dumpStr], parseKVs.eq_def]
      have hv := (ih m (by omega)).1 v (125 :: rest) hwv (headNd_cons 125 rest rfl) hfv
      simp [parseStrBody_spec k _ hwk, hv]
    | cons k2 v2 l2 =>
      rw [show dumpsKVList (.cons k v (.cons k2 v2 l2)) ++ 125 :: rest =
          34 :: (escBody k ++ 34 :: (58 :: (dumps v ++
            44 :: (dumpsKVList (.cons k2 v2 l2) ++ 125 :: rest)))) by
        simp [dumpsKVList, dumpStr], parseKVs.eq_def]
      have hv := (ih m (by omega)).1 v (44 :: (dumpsKVList (.cons k2 v2 l2) ++ 125 :: rest))
        hwv (headNd_cons 44 _ rfl) hfv
      have hwl2 : wfStrB k2 = true ∧ wfJson v2 = true ∧ wfJKVs l2 = true := by
        simpa [wfJKVs, Bool.and_eq_true, and_assoc] using hwl
      have hfl2 : fuelKVList (.cons k2 v2 l2) ≤ m := by
        simp only [fuelKVList] at hfuel ⊢
        omega
      have hkvs := (ih m (by omega)).2.2 k2 v2 l2 rest hwl2.1 hwl2.2.1 hwl2.2.2 hfl2
      simp [parseStrBody_spec k _ hwk, hv, hkvs]

end Glb

namespace Glb

theorem headNd_of_ws (pad : List Nat) (hpad : ∀ c ∈ pad, isWsByte c = true) : headNd pad := by
  intro c hc
  have hm : c ∈ pad := by
    cases pad with
    | nil => simp at hc
    | cons a t =>
      simp only [List.head?_cons, Option.some.injEq] at hc
      subst hc
      simp
  have := hpad c hm
  simp only [isWsByte, Bool.or_eq_true, decide_eq_true_eq] at this
  simp only [isDigitByte, Bool.and_eq_true, decide_eq_true_eq, Bool.and_eq_false_iff,
    decide_eq_false_iff_not]
  omega

theorem loads_dumps (j : Json) (pad : List Nat) (hwf : wfJson j = true)
    (hpad : ∀ c ∈ pad, isWsByte c = true) : loads (dumps j ++ pad) = some j := by
  obtain ⟨c, cs, hc, _, _, _, hws⟩ := dumps_head j
  have hskip : skipWs (dumps j ++ pad) = dumps j ++ pad := by
    rw [skipWs, hc, List.cons_append, List.dropWhile_cons]
    simp [hws]
  have hfuel : fuelVal j ≤ (dumps j ++ pad).length + 1 := by
    have h1 := fuelVal_le j
    simp only [List.length_append]
    omega
  have hmain := (parse_dumps_main ((dumps j ++ pad).length + 1)).1 j pad hwf
    (headNd_of_ws pad hpad) hfuel
  rw [loads, hskip, hmain]
  have hskip2 : skipWs pad = [] := by
    rw [skipWs, List.dropWhile_eq_nil_iff]
    exact fun x hx => hpad x hx
  simp [hskip2]

theorem padSpaces4_ws_tail (bs : List Nat) :
    ∀ c ∈ List.replicate ((4 - bs.length % 4) % 4) 32, isWsByte c = true := by
  intro c hc
  rw [List.eq_of_mem_replicate hc]
  rfl

theorem loads_padSpaces4_dumps (j : Json) (hwf : wfJson j = true) :
    loads (padSpaces4 (dumps j)) = some j :=
  loads_dumps j _ hwf (padSpaces4_ws_tail (dumps j))

end Glb

namespace Glb

theorem glb_roundtrip (D : Json) (P : List Nat) (hwf : wfJson D = true)
    (hsize : 28 + (padSpaces4 (dumps D)).length + (padZeros4 P).length < 4294967296) :
    read_glb (write_glb D P) = .ok (D, padZeros4 P) := by
  set J := padSpaces4 (dumps D) with hJdef
  set B := padZeros4 P with hBdef
  have htake12 : (write_glb D P).take 12 =
      toLE4 glbMagic ++ (toLE4 2 ++ toLE4 (12 + 8 + J.length + 8 + B.length)) := by
    simp [write_glb, toLE4, List.cons_append]
  have hd12t8 : ((write_glb D P).drop 12).take 8 = toLE4 J.length ++ toLE4 jsonChunkTag := by
    simp [write_glb, toLE4, List.cons_append]
  have hd12d8 : ((write_glb D P).drop 12).drop 8 =
      J ++ (toLE4 B.length ++ (toLE4 binChunkTag ++ B)) := by
    simp [write_glb, toLE4, List.cons_append]
  have hd20 : ∀ k, (write_glb D P).drop (20 + k) =
      (J ++ (toLE4 B.length ++ (toLE4 binChunkTag ++ B))).drop k := by
    intro k
    rw [← List.drop_drop k 20 (write_glb D P),
      show (20 : Nat) = 12 + 8 from by norm_num,
      ← List.drop_drop 8 12 (write_glb D P), hd12d8]
  have hlen : (write_glb D P).length = 28 + J.length + B.length := by
    simp only [write_glb, List.length_append, toLE4_length, ← hJdef, ← hBdef]
    omega
  have hlen12 : ((write_glb D P).take 12).length = 12 := by
    rw [htake12]
    simp [toLE4]
  have hmagic : le4 ((write_glb D P).take 12) = glbMagic := by
    rw [htake12, le4_toLE4_append glbMagic _ (by norm_num [glbMagic])]
  have hdecl : le4 (((write_glb D P).take 12).drop 8) = 12 + 8 + J.length + 8 + B.length := by
    rw [htake12, show (toLE4 glbMagic ++ (toLE4 2 ++
      toLE4 (12 + 8 + J.length + 8 + B.length))).drop 8 =
      toLE4 (12 + 8 + J.length + 8 + B.length) from by simp [toLE4],
      le4_toLE4 _ (by omega)]
  have hchlen8 : (((write_glb D P).drop 12).take 8).length = 8 := by
    rw [hd12t8]
    simp [toLE4]
  have hchlen : le4 (((write_glb D P).drop 12).take 8) = J.length := by
    rw [hd12t8, le4_toLE4_append _ _ (by omega)]
  have hjson : (((write_glb D P).drop 12).drop 8).take J.length = J := by
    rw [hd12d8, List.take_left]
  have hload : loads J = some D := loads_padSpaces4_dumps D hwf
  have hrest : ∀ k, (write_glb D P).drop (20 + J.length + k) =
      (toLE4 B.length ++ (toLE4 binChunkTag ++ B)).drop k := by
    intro k
    rw [show 20 + J.length + k = 20 + (J.length + k) from by omega, hd20,
      ← List.drop_drop k J.length, List.drop_left]
  have hch2 : ((write_glb D P).drop (20 + J.length)).take 8 =
      toLE4 B.length ++ toLE4 binChunkTag := by
    rw [show 20 + J.length = 20 + J.length + 0 from by omega, hrest 0, List.drop_zero]
    simp [toLE4]
  have hch2len : (((write_glb D P).drop (20 + J.length)).take 8).length = 8 := by
    rw [hch2]
    simp [toLE4]
  have hch2val : le4 (((write_glb D P).drop (20 + J.length)).take 8) = B.length := by
    rw [hch2, le4_toLE4_append _ _ (by omega)]
  have hpayload : (((write_glb D P).drop (20 + J.length)).drop 8).take B.length = B := by
    rw [List.drop_drop 8 (20 + J.length), show 20 + J.length + 8 = 20 + J.length + 8 from rfl,
      hrest 8, show (toLE4 B.length ++ (toLE4 binChunkTag ++ B)).drop 8 = B from by
        simp [toLE4], List.take_length]
  rw [read_glb]
  simp only [hlen12, hmagic, hdecl, hchlen8, hchlen, hjson, hload, hlen]
  rw [if_neg (show ¬ (12 < 12) from by omega)]
  rw [if_neg (show ¬ glbMagic ≠ glbMagic from by simp)]
  rw [if_neg (show ¬ (8 < 8) from by omega)]
  rw [show min (20 + J.length) (28 + J.length + B.length) = 20 + J.length from by
    simp only [min_eq_left_iff]
    omega]
  rw [if_pos (show 20 + J.length < 12 + 8 + J.length + 8 + B.length from by omega)]
  simp only [hch2len, hch2val, hpayload]
  rw [if_neg (show ¬ (8 < 8) from by omega)]

end Glb

namespace Glb

/-- 3-vectors of machine floats, modelled over `ℝ`. -/
def Vec3 : Type := ℝ × ℝ × ℝ

/-- One entry of the skeleton table: `(name, position, parent_index)`. -/
structure Bone where
  name : String
  pos : ℝ × ℝ × ℝ
  parent : Int

/-- `create_humanoid_skeleton`: the fixed bone table, each rest position a
deterministic fraction of the mesh bounding box. -/
noncomputable def create_humanoid_skeleton (mesh_bounds : (ℝ × ℝ × ℝ) × (ℝ × ℝ × ℝ)) :
    List Bone :=
  let min_pt := mesh_bounds.1
  let max_pt := mesh_bounds.2
  let width := max_pt.1 - min_pt.1
  let height := max_pt.2.1 - min_pt.2.1
  let center_x := (min_pt.1 + max_pt.1) / 2
  let center_z := (min_pt.2.2 + max_pt.2.2) / 2
  [⟨"Root", (center_x, min_pt.2.1, center_z), -1⟩,
   ⟨"Hips", (center_x, min_pt.2.1 + height * 0.45, center_z), 0⟩,
   ⟨"Spine", (center_x, min_pt.2.1 + height * 0.55, center_z), 1⟩,
   ⟨"Chest", (center_x, min_pt.2.1 + height * 0.65, center_z), 2⟩,
   ⟨"Neck", (center_x, min_pt.2.1 + height * 0.80, center_z), 3⟩,
   ⟨"Head", (center_x, min_pt.2.1 + height * 0.90, center_z), 4⟩,
   ⟨"LeftShoulder", (center_x + width * 0.25, min_pt.2.1 + height * 0.75, center_z), 3⟩,
   ⟨"LeftArm", (center_x + width * 0.35, min_pt.2.1 + height * 0.65, center_z), 6⟩,
   ⟨"LeftForearm", (center_x + width * 0.40, min_pt.2.1 + height * 0.50, center_z), 7⟩,
   ⟨"LeftHand", (center_x + width * 0.45, min_pt.2.1 + height * 0.35, center_z), 8⟩,
   ⟨"RightShoulder", (center_x - width * 0.25, min_pt.2.1 + height * 0.75, center_z), 3⟩,
   ⟨"RightArm", (center_x - width * 0.35, min_pt.2.1 + height * 0.65, center_z), 10⟩,
   ⟨"RightForearm", (center_x - width * 0.40, min_pt.2.1 + height * 0.50, center_z), 11⟩,
   ⟨"RightHand", (center_x - width * 0.45, min_pt.2.1 + height * 0.35, center_z), 12⟩,
   ⟨"LeftUpLeg", (center_x + width * 0.12, min_pt.2.1 + height * 0.45, center_z), 1⟩,
   ⟨"LeftLeg", (center_x + width * 0.12, min_pt.2.1 + height * 0.25, center_z), 14⟩,
   ⟨"LeftFoot", (center_x + width * 0.12, min_pt.2.1 + height * 0.05, center_z), 15⟩,
   ⟨"RightUpLeg", (center_x - width * 0.12, min_pt.2.1 + height * 0.45, center_z), 1⟩,
   ⟨"RightLeg", (center_x - width * 0.12, min_pt.2.1 + height * 0.25, center_z), 17⟩,
   ⟨"RightFoot", (center_x - width * 0.12, min_pt.2.1 + height * 0.05, center_z), 18⟩]

/-- Euclidean distance `np.linalg.norm(b - p)`. -/
noncomputable def dist3 (b p : ℝ × ℝ × ℝ) : ℝ :=
  Real.sqrt ((b.1 - p.1) ^ 2 + (b.2.1 - p.2.1) ^ 2 + (b.2.2 - p.2.2) ^ 2)

/-- `np.argsort`: indices ordered by ascending value (stable ordering chosen
for ties, which `np.argsort` leaves unspecified). -/
noncomputable def argsortAsc (v : List ℝ) : List Nat :=
  List.insertionSort (fun i j => v.getD i 0 ≤ v.getD j 0) (List.range v.length)

/-- The `max_influences=4` default of `compute_skin_weights`. -/
def max_influences : Nat := 4

/-- The `inv_dist` array of one `compute_skin_weights` vertex iteration:
inverse distance to every bone, with the `0.001` epsilon. -/
noncomputable def vw_inv_dist (bones : List Bone) (pos : ℝ × ℝ × ℝ) : List ℝ :=
  ((bones.map Bone.pos).map (fun bp => dist3 bp pos)).map (fun d => 1 / (d + 0.001))

/-- The `top_indices` selection `np.argsort(inv_dist)[-max_influences:][::-1]`. -/
noncomputable def vw_top_indices (bones : List Bone) (pos : ℝ × ℝ × ℝ) : List Nat :=
  let sorted := argsortAsc (vw_inv_dist bones pos)
  (sorted.drop (sorted.length - max_influences)).reverse

/-- The selected unnormalized weights `inv_dist[top_indices]`. -/
noncomputable def vw_top_weights (bones : List Bone) (pos : ℝ × ℝ × ℝ) : List ℝ :=
  (vw_top_indices bones pos).map (fun j => (vw_inv_dist bones pos).getD j 0)

/-- One iteration of the `compute_skin_weights` vertex loop: distances to
every bone, inverse-distance weights, top-`max_influences` selection
(`argsort(...)[-4:][::-1]`), and renormalization when the selected total is
positive.  The joint indices pass through the `uint8` array, hence `% 256`. -/
noncomputable def vertex_weights (bones : List Bone) (pos : ℝ × ℝ × ℝ) :
    List Nat × List ℝ :=
  let top_weights := vw_top_weights bones pos
  let total := top_weights.sum
  let top_norm := if 0 < total then top_weights.map (fun w => w / total) else top_weights
  ((vw_top_indices bones pos).map (fun j => j % 256), top_norm)

/-- `compute_skin_weights`: per-vertex joints and weights, flattened in
vertex-major order. -/
noncomputable def compute_skin_weights (positions : List (ℝ × ℝ × ℝ)) (bones : List Bone) :
    List Nat × List ℝ :=
  ((positions.map (fun p => (vertex_weights bones p).1)).flatten,
   (positions.map (fun p => (vertex_weights bones p).2)).flatten)

/-- An animation channel targets translation or rotation of a bone. -/
inductive TargetPath where
  | translation : TargetPath
  | rotation : TargetPath
deriving DecidableEq

/-- One channel produced by `create_animations`:
`(bone index, path, times, values)`. -/
def ChannelSpec : Type := Nat × TargetPath × List ℝ × List ℝ

/-- `quat_from_euler`: half-angle quaternion `[x, y, z, w]`. -/
noncomputable def quat_from_euler (rx ry rz : ℝ) : List ℝ :=
  let cx := Real.cos (rx / 2)
  let sx := Real.sin (rx / 2)
  let cy := Real.cos (ry / 2)
  let sy := Real.sin (ry / 2)
  let cz := Real.cos (rz / 2)
  let sz := Real.sin (rz / 2)
  [sx * cy * cz - cx * sy * sz,
   cx * sy * cz + sx * cy * sz,
   cx * cy * sz - sx * sy * cz,
   cx * cy * cz + sx * sy * sz]

/-- Frames per second of every clip. -/
def fps : Nat := 30

/-- `int(2.0 * 30)` idle frames. -/
def idle_frames : Nat := 60

/-- `int(1.0 * 30)` walk frames. -/
def walk_frames : Nat := 30

/-- `int(0.5 * 30)` attack frames. -/
def attack_frames : Nat := 15

/-- `[i / fps for i in range(frames + 1)]`. -/
noncomputable def frame_times (frames : Nat) : List ℝ :=
  (List.range (frames + 1)).map (fun (i : ℕ) => (i : ℝ) / (fps : ℝ))

noncomputable def idle_times : List ℝ := frame_times idle_frames

noncomputable def walk_times : List ℝ := frame_times walk_frames

noncomputable def attack_times : List ℝ := frame_times attack_frames

/-- The walk cycle duration in seconds. -/
noncomputable def walk_duration : ℝ := 1

/-- The attack duration in seconds. -/
noncomputable def attack_duration : ℝ := 0.5

/-- Attack arm angle as a function of normalized progress (wind-up, swing,
follow-through as in the source). -/
noncomputable def attack_arm_angle (progress : ℝ) : ℝ :=
  if progress < 0.3 then -(progress / 0.3) * 1.5
  else if progress < 0.5 then -1.5 + (progress - 0.3) / 0.2 * 3.0
  else 1.5 * (1 - (progress - 0.5) / 0.5)

/-- Attack forearm angle as a function of normalized progress. -/
noncomputable def attack_forearm_angle (progress : ℝ) : ℝ :=
  if progress < 0.3 then -(progress / 0.3) * 0.5
  else if progress < 0.5 then -0.5 + (progress - 0.3) / 0.2 * 1.0
  else 0.5 * (1 - (progress - 0.5) / 0.5)

/-- Attack chest yaw as a function of normalized progress. -/
noncomputable def attack_chest_angle (progress : ℝ) : ℝ :=
  if progress < 0.3 then -(progress / 0.3) * 0.3
  else if progress < 0.5 then -0.3 + (progress - 0.3) / 0.2 * 0.6
  else 0.3 * (1 - (progress - 0.5) / 0.5)

/-- `create_animations`: the three clips (Idle, Walk, Attack) with their
deterministic closed-form channels.  `bones` enters only through the dead
`base_hip_y` binding, exactly as in the source. -/
noncomputable def create_animations (bones : List Bone) (mesh_height : ℝ) :
    List (String × List ChannelSpec) :=
  let HIPS : Nat := 1
  let SPINE : Nat := 2
  let CHEST : Nat := 3
  let LEFT_ARM : Nat := 7
  let RIGHT_ARM : Nat := 11
  let RIGHT_FOREARM : Nat := 12
  let LEFT_UPLEG : Nat := 14
  let RIGHT_UPLEG : Nat := 17
  let spine_rotations :=
    (idle_times.map (fun t => quat_from_euler (Real.sin (t * Real.pi) * 0.02) 0 0)).flatten
  let idle_channels : List ChannelSpec := [(SPINE, .rotation, idle_times, spine_rotations)]
  let base_hip_y := ((bones.getD HIPS ⟨"", (0, 0, 0), -1⟩).pos).2.1
  let hip_translations :=
    (walk_times.map (fun t =>
      let phase := t / walk_duration * 2 * Real.pi
      [0, |Real.sin (phase * 2)| * 0.02 * mesh_height, 0])).flatten
  let left_leg_rotations :=
    (walk_times.map (fun t =>
      let phase := t / walk_duration * 2 * Real.pi
      quat_from_euler (Real.sin phase * 0.5) 0 0)).flatten
  let right_leg_rotations :=
    (walk_times.map (fun t =>
      let phase := t / walk_duration * 2 * Real.pi
      quat_from_euler (Real.sin (phase + Real.pi) * 0.5) 0 0)).flatten
  let left_arm_rotations :=
    (walk_times.map (fun t =>
      let phase := t / walk_duration * 2 * Real.pi
      quat_from_euler (Real.sin (phase + Real.pi) * 0.3) 0 0)).flatten
  let right_arm_rotations :=
    (walk_times.map (fun t =>
      let phase := t / walk_duration * 2 * Real.pi
      quat_from_euler (Real.sin phase * 0.3) 0 0)).flatten
  let walk_channels : List ChannelSpec :=
    [(HIPS, .translation, walk_times, hip_translations),
     (LEFT_UPLEG, .rotation, walk_times, left_leg_rotations),
     (RIGHT_UPLEG, .rotation, walk_times, right_leg_rotations),
     (LEFT_ARM, .rotation, walk_times, left_arm_rotations),
     (RIGHT_ARM, .rotation, walk_times, right_arm_rotations)]
  let right_arm_attack :=
    (attack_times.map (fun t => quat_from_euler (attack_arm_angle (t / attack_duration)) 0 0)).flatten
  let right_forearm_attack :=
    (attack_times.map (fun t =>
      quat_from_euler (attack_forearm_angle (t / attack_duration)) 0 0)).flatten
  let chest_attack :=
    (attack_times.map (fun t =>
      quat_from_euler 0 (attack_chest_angle (t / attack_duration)) 0)).flatten
  let attack_channels : List ChannelSpec :=
    [(RIGHT_ARM, .rotation, attack_times, right_arm_attack),
     (RIGHT_FOREARM, .rotation, attack_times, right_forearm_attack),
     (CHEST, .rotation, attack_times, chest_attack)]
  [("Idle", idle_channels), ("Walk", walk_channels), ("Attack", attack_channels)]

end Glb

namespace Glb

/-- glTF accessor element shapes. -/
inductive AccType where
  | SCALAR : AccType
  | VEC2 : AccType
  | VEC3 : AccType
  | VEC4 : AccType
  | MAT4 : AccType
deriving DecidableEq

/-- Mesh primitive attribute keys the tool touches. -/
inductive AttrKey where
  | POSITION : AttrKey
  | JOINTS_0 : AttrKey
  | WEIGHTS_0 : AttrKey
deriving DecidableEq

/-- A glTF accessor (the fields the tool reads or writes). -/
structure Accessor where
  bufferView : Nat
  componentType : Nat
  count : Nat
  type : AccType
  byteOffset : Nat := 0
  minBound : Option (List ℝ) := none
  maxBound : Option (List ℝ) := none

/-- A glTF buffer view. -/
structure BufferView where
  buffer : Nat
  byteOffset : Nat
  byteLength : Nat
  byteStride : Option Nat := none

/-- A glTF node (the fields the tool reads or writes). -/
structure Node where
  name : Option String := none
  mesh : Option Nat := none
  skin : Option Nat := none
  translation : Option (ℝ × ℝ × ℝ) := none
  rotation : Option (List ℝ) := none
  scale : Option (List ℝ) := none
  children : List Nat := []

/-- A mesh primitive: its attribute dictionary. -/
structure Primitive where
  attributes : List (AttrKey × Nat)

/-- A glTF mesh. -/
structure Mesh where
  primitives : List Primitive

/-- A glTF skin. -/
structure Skin where
  inverseBindMatrices : Nat
  joints : List Nat
  skeleton : Nat
  name : String

/-- An animation sampler. -/
structure AnimSampler where
  input : Nat
  output : Nat

/-- An animation channel (sampler index and target). -/
structure AnimChannel where
  sampler : Nat
  targetNode : Nat
  targetPath : TargetPath

/-- A glTF animation. -/
structure Animation where
  name : String
  samplers : List AnimSampler
  channels : List AnimChannel

/-- A glTF buffer entry. -/
structure GlbBuffer where
  byteLength : Nat

/-- A glTF scene. -/
structure Scene where
  nodes : List Nat

/-- The glTF document: parallel index-keyed arrays, as the JSON dict holds
them. -/
structure Gltf where
  nodes : List Node := []
  meshes : List Mesh := []
  accessors : List Accessor := []
  bufferViews : List BufferView := []
  buffers : List GlbBuffer := []
  skins : List Skin := []
  animations : List Animation := []
  scenes : List Scene := []

/-- A byte of the growing binary payload, kept symbolic: IEEE-754 encoding
of floats is not modelled, but every byte is tagged with the value and lane
it serializes so lengths and offsets are exact. -/
inductive BufByte where
  | pad : BufByte
  | f32 (x : ℝ) (lane : Fin 4) : BufByte
  | u8 (v : Nat) : BufByte
  | u16 (v : Nat) (lane : Fin 2) : BufByte

/-- The typed data `add_to_buffer` packs (`dtype` 'f', 'B', 'H', or raw). -/
inductive BufData where
  | floats (xs : List ℝ) : BufData
  | ubytes (xs : List Nat) : BufData
  | ushorts (xs : List Nat) : BufData
  | raw (bs : List BufByte) : BufData

/-- `struct.pack` of one dtype batch. -/
def packData : BufData → List BufByte
  | .floats xs => (xs.map (fun x => [BufByte.f32 x 0, .f32 x 1, .f32 x 2, .f32 x 3])).flatten
  | .ubytes xs => xs.map BufByte.u8
  | .ushorts xs => (xs.map (fun v => [BufByte.u16 v 0, .u16 v 1])).flatten
  | .raw bs => bs

/-- `add_to_buffer`: zero-pad the buffer to 4-byte alignment, append the
packed data, and return the new buffer with the start offset and packed
byte length. -/
def add_to_buffer (bin_data : List BufByte) (data : BufData) :
    List BufByte × Nat × Nat :=
  let aligned := bin_data ++ List.replicate ((4 - bin_data.length % 4) % 4) BufByte.pad
  let offset := aligned.length
  let packed := packData data
  (aligned ++ packed, offset, packed.length)

/-- Replace the element at an index, leaving the list unchanged when out of
range (the pipeline only uses in-range indices). -/
def listSet {α : Type} : List α → Nat → α → List α
  | [], _, _ => []
  | _ :: t, 0, a => a :: t
  | h :: t, Nat.succ n, a => h :: listSet t n a

/-- Update the element at an index with a function. -/
def listModify {α : Type} : List α → Nat → (α → α) → List α
  | [], _, _ => []
  | h :: t, 0, f => f h :: t
  | h :: t, Nat.succ n, f => h :: listModify t n f

/-- Dictionary update for a primitive's attribute map (`dict[key] = value`). -/
def dictSet (kvs : List (AttrKey × Nat)) (k : AttrKey) (v : Nat) : List (AttrKey × Nat) :=
  if (kvs.map Prod.fst).contains k then
    kvs.map (fun kv => if kv.1 = k then (k, v) else kv)
  else kvs ++ [(k, v)]

/-- Pipeline errors: the explicit no-mesh `ValueError`, the numpy failure on
an empty vertex array, and Python `IndexError`/`KeyError` on a missing
mesh, primitive or buffer. -/
inductive PErr where
  | noMesh : PErr
  | emptyPositions : PErr
  | badIndex : PErr

end Glb

namespace Glb

/-- Python `min` over a nonempty float list (callers never pass `[]`). -/
noncomputable def pyMin : List ℝ → ℝ
  | [] => 0
  | x :: r => r.foldl min x

/-- Python `max` over a nonempty float list (callers never pass `[]`). -/
noncomputable def pyMax : List ℝ → ℝ
  | [] => 0
  | x :: r => r.foldl max x

/-- The time accessor appended for an animation channel, declaring
`min = [min(times)]` and `max = [max(times)]` as the source does. -/
noncomputable def mkTimeAccessor (bv : Nat) (times : List ℝ) : Accessor :=
  { bufferView := bv, componentType := 5126, count := times.length, type := .SCALAR,
    minBound := some [pyMin times], maxBound := some [pyMax times] }

/-- The document/payload state threaded through the animation appends. -/
structure AnimState where
  accessors : List Accessor
  bufferViews : List BufferView
  bin : List BufByte
  animations : List Animation

/-- The in-clip state: one sampler and one channel per `ChannelSpec`. -/
structure ClipState where
  accessors : List Accessor
  bufferViews : List BufferView
  bin : List BufByte
  samplers : List AnimSampler
  channels : List AnimChannel

/-- Append one animation channel: time accessor (with min/max), value
accessor, sampler and channel, growing the payload twice. -/
noncomputable def append_channel (joint_node_indices : List Nat) (st : ClipState)
    (ch : ChannelSpec) : ClipState :=
  let r1 := add_to_buffer st.bin (.floats ch.2.2.1)
  let times_bv_idx := st.bufferViews.length
  let bufferViews1 := st.bufferViews ++ [⟨0, r1.2.1, r1.2.2, none⟩]
  let times_acc_idx := st.accessors.length
  let accessors1 := st.accessors ++ [mkTimeAccessor times_bv_idx ch.2.2.1]
  let r2 := add_to_buffer r1.1 (.floats ch.2.2.2)
  let values_bv_idx := bufferViews1.length
  let bufferViews2 := bufferViews1 ++ [⟨0, r2.2.1, r2.2.2, none⟩]
  let vec_type := if ch.2.1 = TargetPath.rotation then AccType.VEC4 else AccType.VEC3
  let values_acc_idx := accessors1.length
  let accessors2 := accessors1 ++
    [{ bufferView := values_bv_idx, componentType := 5126, count := ch.2.2.1.length,
       type := vec_type }]
  let sampler_idx := st.samplers.length
  { accessors := accessors2, bufferViews := bufferViews2, bin := r2.1,
    samplers := st.samplers ++ [⟨times_acc_idx, values_acc_idx⟩],
    channels := st.channels ++
      [⟨sampler_idx, joint_node_indices.getD ch.1 0, ch.2.1⟩] }

/-- Append one named clip: fold its channels with fresh sampler/channel
lists, then append the `Animation` record. -/
noncomputable def append_animation (joint_node_indices : List Nat) (st : AnimState)
    (clip : String × List ChannelSpec) : AnimState :=
  let inner := clip.2.foldl (append_channel joint_node_indices)
    ⟨st.accessors, st.bufferViews, st.bin, [], []⟩
  { accessors := inner.accessors, bufferViews := inner.bufferViews, bin := inner.bin,
    animations := st.animations ++
      [⟨clip.1, inner.samplers, inner.channels⟩] }

set_option maxHeartbeats 1000000 in
/-- The pipeline after position extraction (`add_skeleton_to_glb` lines
329–553): locate the mesh node, compute bounds, build the skeleton, solve
skin weights, synthesize animations, and append joint nodes, inverse bind
matrices, skin, vertex attributes and animations to the document and
payload.  Vertex positions arrive already extracted (`get_accessor_data`
decodes IEEE-754 floats, which the model does not re-encode); the Python
`IndexError` on a document without `buffers[0]` is not modelled (the update
is a no-op there). -/
noncomputable def add_skeleton_core (gltf : Gltf) (positions : List (ℝ × ℝ × ℝ))
    (bin0 : List BufByte) : Except PErr (Gltf × List BufByte) :=
  match gltf.nodes.findIdx? (fun n => n.mesh.isSome) with
  | none => .error .noMesh
  | some mesh_node_idx =>
    let mesh_idx := ((gltf.nodes.getD mesh_node_idx {}).mesh).getD 0
    match gltf.meshes[mesh_idx]? with
    | none => .error .badIndex
    | some mesh =>
      match mesh.primitives[0]? with
      | none => .error .badIndex
      | some primitive =>
        match positions with
        | [] => .error .emptyPositions
        | p0 :: prest =>
          let min_pt := prest.foldl
            (fun a b => (min a.1 b.1, min a.2.1 b.2.1, min a.2.2 b.2.2)) p0
          let max_pt := prest.foldl
            (fun a b => (max a.1 b.1, max a.2.1 b.2.1, max a.2.2 b.2.2)) p0
          let mesh_height := max_pt.2.1 - min_pt.2.1
          let bones := create_humanoid_skeleton (min_pt, max_pt)
          let jw := compute_skin_weights positions bones
          let animations := create_animations bones mesh_height
          let base_node_idx := gltf.nodes.length
          let joint_node_indices := (List.range bones.length).map (fun i => base_node_idx + i)
          let nodes1 := gltf.nodes ++ bones.map (fun b =>
            { name := some b.name, translation := some b.pos,
              rotation := some [0, 0, 0, 1], scale := some [1, 1, 1] })
          let nodes2 := bones.enum.foldl (fun ns ib =>
            if 0 ≤ ib.2.parent then
              listModify ns (joint_node_indices.getD ib.2.parent.toNat 0)
                (fun pn => { pn with
                  children := pn.children ++ [joint_node_indices.getD ib.1 0] })
            else ns) nodes1
          let inverse_bind_matrices := (bones.map (fun b =>
            [1, 0, 0, 0, 0, 1, 0, 0, 0, 0, 1, 0,
             -b.pos.1, -b.pos.2.1, -b.pos.2.2, 1])).flatten
          let r1 := add_to_buffer bin0 (.floats inverse_bind_matrices)
          let ibm_buffer_view_idx := gltf.bufferViews.length
          let bufferViews1 := gltf.bufferViews ++ [⟨0, r1.2.1, r1.2.2, none⟩]
          let ibm_accessor_idx := gltf.accessors.length
          let accessors1 := gltf.accessors ++
            [{ bufferView := ibm_buffer_view_idx, componentType := 5126,
               count := bones.length, type := .MAT4 }]
          let skin_idx := gltf.skins.length
          let skins1 := gltf.skins ++
            [{ inverseBindMatrices := ibm_accessor_idx, joints := joint_node_indices,
               skeleton := joint_node_indices.getD 0 0, name := "Armature" }]
          let nodes3 := listModify nodes2 mesh_node_idx (fun n => { n with skin := some skin_idx })
          let r2 := add_to_buffer r1.1 (.ubytes jw.1)
          let joints_bv_idx := bufferViews1.length
          let bufferViews2 := bufferViews1 ++ [⟨0, r2.2.1, r2.2.2, some 4⟩]
          let joints_acc_idx := accessors1.length
          let accessors2 := accessors1 ++
            [{ bufferView := joints_bv_idx, componentType := 5121,
               count := positions.length, type := .VEC4 }]
          let r3 := add_to_buffer r2.1 (.floats jw.2)
          let weights_bv_idx := bufferViews2.length
          let bufferViews3 := bufferViews2 ++ [⟨0, r3.2.1, r3.2.2, some 16⟩]
          let weights_acc_idx := accessors2.length
          let accessors3 := accessors2 ++
            [{ bufferView := weights_bv_idx, componentType := 5126,
               count := positions.length, type := .VEC4 }]
          let primitive1 : Primitive :=
            ⟨dictSet (dictSet primitive.attributes .JOINTS_0 joints_acc_idx)
              .WEIGHTS_0 weights_acc_idx⟩
          let meshes1 := listModify gltf.meshes mesh_idx (fun m =>
            { m with primitives := listSet m.primitives 0 primitive1 })
          let animSt := animations.foldl (append_animation joint_node_indices)
            ⟨accessors3, bufferViews3, r3.1, gltf.animations⟩
          let buffers1 := listModify gltf.buffers 0 (fun b =>
            { b with byteLength := animSt.bin.length })
          let root_skeleton_node := joint_node_indices.getD 0 0
          let scenes1 :=
            if gltf.scenes.length > 0 then
              listModify gltf.scenes 0 (fun sc =>
                if root_skeleton_node ∈ sc.nodes then sc
                else { sc with nodes := sc.nodes ++ [root_skeleton_node] })
            else gltf.scenes
          .ok ({ nodes := nodes3, meshes := meshes1, accessors := animSt.accessors,
                 bufferViews := animSt.bufferViews, buffers := buffers1, skins := skins1,
                 animations := animSt.animations, scenes := scenes1 }, animSt.bin)

/-- The pipeline followed by any encoding of its result: an abstraction of
`write_glb` and the output file.  A pipeline error yields no output. -/
noncomputable def pipeline_output {α : Type} (gltf : Gltf) (positions : List (ℝ × ℝ × ℝ))
    (bin0 : List BufByte) (encode : Gltf × List BufByte → α) : Except PErr α :=
  (add_skeleton_core gltf positions bin0).map encode

end Glb

namespace Glb

/-- The single-triangle scenario: vertex positions `(0,0,0), (1,0,0), (0,1,0)`. -/
noncomputable def triPositions : List (ℝ × ℝ × ℝ) := [(0, 0, 0), (1, 0, 0), (0, 1, 0)]

/-- The scenario's input document: one mesh-referencing node, one primitive
with a `POSITION` accessor over a 36-byte buffer. -/
noncomputable def triGltf : Gltf :=
  { nodes := [{ mesh := some 0 }],
    meshes := [⟨[⟨[(.POSITION, 0)]⟩]⟩],
    accessors := [{ bufferView := 0, componentType := 5126, count := 3, type := .VEC3 }],
    bufferViews := [⟨0, 0, 36, none⟩],
    buffers := [⟨36⟩],
    scenes := [⟨[0]⟩] }

/-- The scenario's initial binary payload: the nine packed position floats. -/
noncomputable def triBin : List BufByte :=
  packData (.floats ((triPositions.map (fun p => [p.1, p.2.1, p.2.2])).flatten))

/-- The pipeline result on the single-triangle scenario. -/
noncomputable def triResult : Except PErr (Gltf × List BufByte) :=
  add_skeleton_core triGltf triPositions triBin

end Glb

namespace Glb

theorem vw_inv_dist_length (bones : List Bone) (pos : ℝ × ℝ × ℝ) :
    (vw_inv_dist bones pos).length = bones.length := by
  simp [vw_inv_dist]

theorem vw_inv_dist_pos (bones : List Bone) (pos : ℝ × ℝ × ℝ) :
    ∀ w ∈ vw_inv_dist bones pos, 0 < w := by
  intro w hw
  simp only [vw_inv_dist, List.map_map, List.mem_map] at hw
  obtain ⟨b, _, rfl⟩ := hw
  have hd : 0 ≤ dist3 b.pos pos := Real.sqrt_nonneg _
  simp only [Function.comp_apply]
  have : (0 : ℝ) < dist3 b.pos pos + 0.001 := by
    have : (0 : ℝ) < 0.001 := by norm_num
    linarith
  positivity

theorem vw_inv_dist_getD_pos (bones : List Bone) (pos : ℝ × ℝ × ℝ) (j : Nat)
    (hj : j < (vw_inv_dist bones pos).length) : 0 < (vw_inv_dist bones pos).getD j 0 := by
  have hmem : (vw_inv_dist bones pos).getD j 0 ∈ vw_inv_dist bones pos := by
    rw [List.getD_eq_getElem _ _ hj]
    exact List.getElem_mem hj
  exact vw_inv_dist_pos bones pos _ hmem

theorem argsortAsc_perm (v : List ℝ) : (argsortAsc v).Perm (List.range v.length) :=
  List.perm_insertionSort _ _

theorem argsortAsc_length (v : List ℝ) : (argsortAsc v).length = v.length := by
  simpa using (argsortAsc_perm v).length_eq

theorem argsortAsc_nodup (v : List ℝ) : (argsortAsc v).Nodup :=
  ((argsortAsc_perm v).nodup_iff).mpr (List.nodup_range _)

theorem argsortAsc_mem (v : List ℝ) (j : Nat) : j ∈ argsortAsc v ↔ j < v.length := by
  rw [(argsortAsc_perm v).mem_iff, List.mem_range]

theorem argsortAsc_sorted (v : List ℝ) :
    List.Sorted (fun i j => v.getD i 0 ≤ v.getD j 0) (argsortAsc v) := by
  haveI : IsTotal Nat (fun i j => v.getD i 0 ≤ v.getD j 0) := ⟨fun a b => le_total _ _⟩
  haveI : IsTrans Nat (fun i j => v.getD i 0 ≤ v.getD j 0) := ⟨fun a b c => le_trans⟩
  exact List.sorted_insertionSort _ _

theorem vw_top_indices_mem (bones : List Bone) (pos : ℝ × ℝ × ℝ) (j : Nat)
    (hj : j ∈ vw_top_indices bones pos) : j < bones.length := by
  simp only [vw_top_indices, List.mem_reverse] at hj
  have := List.drop_subset _ _ hj
  rw [argsortAsc_mem, vw_inv_dist_length] at this
  exact this

theorem vw_top_indices_length (bones : List Bone) (pos : ℝ × ℝ × ℝ) :
    (vw_top_indices bones pos).length = min max_influences bones.length := by
  simp only [vw_top_indices, List.length_reverse, List.length_drop, argsortAsc_length,
    vw_inv_dist_length]
  omega

theorem vw_top_indices_nodup (bones : List Bone) (pos : ℝ × ℝ × ℝ) :
    (vw_top_indices bones pos).Nodup := by
  simp only [vw_top_indices, List.nodup_reverse]
  exact (argsortAsc_nodup _).sublist (List.drop_sublist _ _)

theorem vw_top_indices_ne_nil (bones : List Bone) (pos : ℝ × ℝ × ℝ) (hb : bones ≠ []) :
    vw_top_indices bones pos ≠ [] := by
  have hlen := vw_top_indices_length bones pos
  intro hnil
  rw [hnil] at hlen
  simp only [List.length_nil, max_influences] at hlen
  have : 0 < bones.length := List.length_pos.mpr hb
  omega

theorem vw_top_weights_pos (bones : List Bone) (pos : ℝ × ℝ × ℝ) :
    ∀ w ∈ vw_top_weights bones pos, 0 < w := by
  intro w hw
  simp only [vw_top_weights, List.mem_map] at hw
  obtain ⟨j, hj, rfl⟩ := hw
  exact vw_inv_dist_getD_pos bones pos j
    ((vw_inv_dist_length bones pos).symm ▸ vw_top_indices_mem bones pos j hj)

theorem vw_top_weights_sum_pos (bones : List Bone) (pos : ℝ × ℝ × ℝ) (hb : bones ≠ []) :
    0 < (vw_top_weights bones pos).sum := by
  apply List.sum_pos _ (vw_top_weights_pos bones pos)
  simp only [vw_top_weights, ne_eq, List.map_eq_nil_iff]
  exact vw_top_indices_ne_nil bones pos hb

/-- The largest-`K` property of the selection: every selected index carries
at least the inverse-distance weight of every unselected index. -/
theorem vw_top_indices_largest (bones : List Bone) (pos : ℝ × ℝ × ℝ) (j k : Nat)
    (hj : j ∈ vw_top_indices bones pos) (hk : k < bones.length)
    (hknot : k ∉ vw_top_indices bones pos) :
    (vw_inv_dist bones pos).getD k 0 ≤ (vw_inv_dist bones pos).getD j 0 := by
  set v := vw_inv_dist bones pos with hv
  set s := argsortAsc v with hs
  have hsorted : List.Pairwise (fun i j => v.getD i 0 ≤ v.getD j 0) s := argsortAsc_sorted v
  have hsplit := List.take_append_drop (s.length - max_influences) s
  rw [← hsplit] at hsorted
  have hcross := (List.pairwise_append.mp hsorted).2.2
  have hjdrop : j ∈ s.drop (s.length - max_influences) := by
    simpa [vw_top_indices, ← hv, ← hs, List.mem_reverse] using hj
  have hks : k ∈ s := by
    rw [hs, argsortAsc_mem, hv, vw_inv_dist_length]
    exact hk
  rw [← hsplit] at hks
  rcases List.mem_append.mp hks with hktake | hkdrop
  · exact hcross k hktake j hjdrop
  · exact absurd (by simpa [vw_top_indices, ← hv, ← hs, List.mem_reverse] using hkdrop) hknot

/-- The selected weights are listed in non-increasing order. -/
theorem vw_top_weights_antitone (bones : List Bone) (pos : ℝ × ℝ × ℝ) :
    List.Pairwise (fun a b => b ≤ a) (vw_top_weights bones pos) := by
  set v := vw_inv_dist bones pos with hv
  set s := argsortAsc v with hs
  have hsorted : List.Pairwise (fun i j => v.getD i 0 ≤ v.getD j 0) s := argsortAsc_sorted v
  have hdrop : List.Pairwise (fun i j => v.getD i 0 ≤ v.getD j 0)
      (s.drop (s.length - max_influences)) := hsorted.sublist (List.drop_sublist _ _)
  have hrev : List.Pairwise (fun i j => v.getD j 0 ≤ v.getD i 0)
      ((s.drop (s.length - max_influences)).reverse) := by
    rw [List.pairwise_reverse]
    exact hdrop
  have : vw_top_weights bones pos =
      ((s.drop (s.length - max_influences)).reverse).map (fun j => v.getD j 0) := by
    rw [vw_top_weights, vw_top_indices, ← hv, ← hs]
  rw [this]
  exact hrev.map _ (fun a b h => h)

end Glb

namespace Glb

theorem list_sum_map_div (l : List ℝ) (t : ℝ) :
    (l.map (fun w => w / t)).sum = l.sum / t := by
  induction l with
  | nil => simp
  | cons a l ih => simp [ih, add_div]

theorem pyMin_of_sorted (x : ℝ) (r : List ℝ) (h : List.Chain' (· ≤ ·) (x :: r)) :
    pyMin (x :: r) = x := by
  rw [pyMin]
  have hall : ∀ y ∈ r, x ≤ y := by
    intro y hy
    rcases List.chain'_cons'.mp h with ⟨_, hr⟩
    have hpw : List.Pairwise (· ≤ ·) (x :: r) := List.chain'_iff_pairwise.mp h
    exact (List.pairwise_cons.mp hpw).1 y hy
  induction r generalizing x with
  | nil => rfl
  | cons y r ih =>
    rw [List.foldl_cons, min_eq_left (hall y (by simp))]
    refine ih x ?_ ?_
    · refine List.chain'_iff_pairwise.mpr ?_
      have hpw : List.Pairwise (· ≤ ·) (x :: y :: r) := List.chain'_iff_pairwise.mp h
      exact hpw.sublist (by
        refine List.cons_sublist_cons.mpr ?_
        exact List.sublist_cons_self y r)
    · intro z hz
      exact hall z (by simp [hz])

theorem pyMax_of_sorted (x : ℝ) (r : List ℝ) (h : List.Chain' (· ≤ ·) (x :: r)) :
    pyMax (x :: r) = (x :: r).getLastD 0 := by
  rw [pyMax]
  induction r generalizing x with
  | nil => rfl
  | cons y r ih =>
    have hxy : x ≤ y := (List.chain'_cons.mp h).1
    have htail : List.Chain' (· ≤ ·) (y :: r) := (List.chain'_cons.mp h).2
    rw [List.foldl_cons, max_eq_right hxy]
    rw [ih y htail]
    simp [List.getLastD_cons]

theorem frame_times_chain (n : Nat) : List.Chain' (· < ·) (frame_times n) := by
  rw [frame_times, List.chain'_map]
  rw [show n + 1 = Nat.succ n from rfl, List.chain'_range_succ]
  intro m hm
  have hfps : (0 : ℝ) < (fps : ℝ) := by norm_num [fps]
  gcongr
  exact_mod_cast Nat.lt_succ_self m

end Glb

namespace Glb

/-- Default accessor used with `List.getD` in claim statements. -/
def dummyAccessor : Accessor := ⟨0, 0, 0, .SCALAR, 0, none, none⟩

/-- Default bone used with `List.getD` in claim statements. -/
noncomputable def boneDefault : Bone := ⟨"", (0, 0, 0), 0⟩

/-- A container whose header carries version 99 instead of 2, with a valid
magic, a 2-byte JSON chunk holding the empty object, and total length 22. -/
def badVersionGlb : List Nat :=
  [103, 108, 84, 70, 99, 0, 0, 0, 22, 0, 0, 0, 2, 0, 0, 0, 74, 83, 79, 78, 123, 125]

/-- The file position after the JSON chunk (`f.tell()` in `read_glb`): the
declared JSON chunk end, clamped to the input length by the short-read
semantics of `f.read`. -/
def glbPos (bs : List Nat) : Nat := min (20 + le4 ((bs.drop 12).take 8)) bs.length

/-- A 32-byte container (magic ok, version 2, declared total length 32)
whose binary chunk declares 100 payload bytes while only 2 bytes `[7, 9]`
follow the chunk header: the declared chunk length reads far past both the
declared total length and the end of the input. -/
def overLongGlb : List Nat :=
  [103, 108, 84, 70, 2, 0, 0, 0, 32, 0, 0, 0, 2, 0, 0, 0, 74, 83, 79, 78, 123, 125,
   100, 0, 0, 0, 66, 73, 78, 0, 7, 9]

/-- Decoding followed by any continuation of the tool (the rest of the
pipeline and the output write): an error in decoding reaches the caller and
nothing downstream runs. -/
def decode_then {α : Type} (bs : List Nat) (k : Json × List Nat → Except GlbErr α) :
    Except GlbErr α :=
  (read_glb bs).bind k

/-- A small well-formed document and payload for the round-trip witness. -/
def rtDoc : Json := .obj (.cons [107] (.num 1) (.cons [118] (.arr (.cons (.num (-2)) .nil)) .nil))

/-- The round-trip witness payload. -/
def rtPayload : List Nat := [1, 2, 3]

/-- The Idle clip exactly as `create_animations` produces it (for the C5
witness instantiation). -/
noncomputable def idleClip : String × List ChannelSpec :=
  ("Idle", [(2, TargetPath.rotation, idle_times,
    (idle_times.map (fun t => quat_from_euler (Real.sin (t * Real.pi) * 0.02) 0 0)).flatten)])

theorem le4_take (bs : List Nat) (n : Nat) (h : 4 ≤ n) : le4 (bs.take n) = le4 bs := by
  simp only [le4, List.getD_eq_getElem?_getD, List.getElem?_take]
  rw [if_pos (by omega), if_pos (by omega), if_pos (by omega), if_pos (by omega)]

end Glb

namespace Glb

/-- C1 (counterexample): on the single-triangle bounds the skeleton builder
yields 20 bones, not the 19 the claim states. -/
theorem c1_single_triangle_counterexample :
    ¬ (create_humanoid_skeleton ((0, 0, 0), (1, 1, 0))).length = 19 := by
  have h : (create_humanoid_skeleton ((0, 0, 0), (1, 1, 0))).length = 20 := rfl
  omega

/-- C1 (amended): on the single-triangle mesh with positions
`(0,0,0), (1,0,0), (0,1,0)` the pipeline yields exactly 20 bones, a skin
listing exactly 20 joints, `JOINTS_0` and `WEIGHTS_0` accessors of count 3
each (attribute keys pointing at accessors 2 and 3), and exactly 3
animation clips named Idle, Walk, Attack. -/
theorem c1_single_triangle_scenario :
    (create_humanoid_skeleton ((0, 0, 0), (1, 1, 0))).length = 20 ∧
    triResult.map (fun r => r.1.skins.map (fun s => s.joints.length)) = .ok [20] ∧
    triResult.map (fun r =>
      ((r.1.meshes.getD 0 ⟨[]⟩).primitives.getD 0 ⟨[]⟩).attributes) =
      .ok [(.POSITION, 0), (.JOINTS_0, 2), (.WEIGHTS_0, 3)] ∧
    triResult.map (fun r => (r.1.accessors.getD 2 dummyAccessor).count) = .ok 3 ∧
    triResult.map (fun r => (r.1.accessors.getD 3 dummyAccessor).count) = .ok 3 ∧
    triResult.map (fun r => r.1.animations.map (fun a => a.name)) =
      .ok ["Idle", "Walk", "Attack"] :=
  ⟨rfl, rfl, rfl, rfl, rfl, rfl⟩

/-- C2 (counterexample): two inputs refuting the claim.  First, a container
whose version field is 99 (not 2) decodes successfully — `read_glb` never
validates the version.  Second, a 32-byte container whose binary chunk
declares 100 payload bytes (reading past both the declared total length 32
and the end of the input) also decodes successfully, returning only the 2
available bytes — the over-long declared chunk length is silently
truncated, not rejected with an error. -/
theorem c2_version_not_validated :
    (le4 ((badVersionGlb.take 12).drop 4) = 99 ∧ (99 : Nat) ≠ 2 ∧
      read_glb badVersionGlb = .ok (.obj .nil, [])) ∧
    (le4 ((overLongGlb.take 12).drop 8) = 32 ∧ overLongGlb.length = 32 ∧
      glbPos overLongGlb = 22 ∧ le4 ((overLongGlb.drop 22).take 4) = 100 ∧
      22 + 8 + 100 > 32 ∧
      read_glb overLongGlb = .ok (.obj .nil, [7, 9])) :=
  ⟨⟨rfl, by norm_num, rfl⟩, ⟨rfl, rfl, rfl, rfl, by norm_num, rfl⟩⟩

/-- C2 (amended): decode validates the 4-byte magic tag (not the version):
whenever the magic mismatches it fails, whenever the structured-document
chunk fails to parse it fails with the JSON error, and any failure
propagates through the rest of the tool so no output is produced; but the
declared binary-chunk length is never compared against the declared total
length or the input's end: once the binary-chunk header is readable,
decoding succeeds and returns the available bytes up to the declared
length — an over-long declared chunk length is silently truncated. -/
theorem c2_decode_failure_modes :
    (∀ bs : List Nat, le4 (bs.take 4) ≠ glbMagic → ∃ e, read_glb bs = .error e) ∧
    (∀ bs : List Nat, ¬ (bs.take 12).length < 12 → le4 (bs.take 12) = glbMagic →
      ¬ ((bs.drop 12).take 8).length < 8 →
      loads (((bs.drop 12).drop 8).take (le4 ((bs.drop 12).take 8))) = none →
      read_glb bs = .error .jsonError) ∧
    (∀ (bs : List Nat) (doc : Json), ¬ (bs.take 12).length < 12 →
      le4 (bs.take 12) = glbMagic →
      ¬ ((bs.drop 12).take 8).length < 8 →
      loads (((bs.drop 12).drop 8).take (le4 ((bs.drop 12).take 8))) = some doc →
      glbPos bs < le4 ((bs.take 12).drop 8) →
      ¬ ((bs.drop (glbPos bs)).take 8).length < 8 →
      read_glb bs =
        .ok (doc, ((bs.drop (glbPos bs)).drop 8).take (le4 ((bs.drop (glbPos bs)).take 8)))) ∧
    (∀ (α : Type) (bs : List Nat) (k : Json × List Nat → Except GlbErr α) (e : GlbErr),
      read_glb bs = .error e → decode_then bs k = .error e) := by
  refine ⟨?_, ?_, ?_, ?_⟩
  · intro bs h
    by_cases h12 : (bs.take 12).length < 12
    · exact ⟨.structError, by rw [read_glb, if_pos h12]⟩
    · have hm : le4 (bs.take 12) ≠ glbMagic := by
        rw [le4_take bs 12 (by norm_num)]
        rw [le4_take bs 4 (by norm_num)] at h
        exact h
      exact ⟨.badMagic, by rw [read_glb, if_neg h12, if_pos hm]⟩
  · intro bs h12 hm h8 hjson
    rw [read_glb, if_neg h12, if_neg (by simp [hm]), if_neg h8]
    simp only [hjson]
  · intro bs doc h12 hm h8 hdoc hpos h8b
    rw [read_glb, if_neg h12, if_neg (by simp [hm]), if_neg h8]
    simp only [hdoc]
    simp only [glbPos] at hpos h8b
    rw [if_pos hpos, if_neg h8b]
    rfl
  · intro α bs k e h
    rw [decode_then, h]
    rfl

/-- C3: container round trip — for every well-formed document and payload
whose encoded size fits the 32-bit length fields, decoding the bytes
produced by `write_glb` returns the same document and the payload padded
with trailing zero bytes to 4-byte alignment. -/
theorem c3_container_roundtrip (D : Json) (P : List Nat) (hwf : wfJson D = true)
    (hsize : 28 + (padSpaces4 (dumps D)).length + (padZeros4 P).length < 4294967296) :
    read_glb (write_glb D P) = .ok (D, padZeros4 P) :=
  glb_roundtrip D P hwf hsize

/-- C3 witness: the round trip at a concrete document and payload. -/
theorem c3_container_roundtrip_witness :
    wfJson rtDoc = true ∧
    read_glb (write_glb rtDoc rtPayload) = .ok (rtDoc, padZeros4 rtPayload) :=
  ⟨by decide, c3_container_roundtrip rtDoc rtPayload (by decide) (by decide)⟩

end Glb

namespace Glb

/-- The emitted per-vertex weights in the non-degenerate case: the selected
weights divided by their (positive) total. -/
theorem vertex_weights_snd_eq (bones : List Bone) (pos : ℝ × ℝ × ℝ) (hb : bones ≠ []) :
    (vertex_weights bones pos).2 =
      (vw_top_weights bones pos).map (fun w => w / (vw_top_weights bones pos).sum) := by
  simp only [vertex_weights, if_pos (vw_top_weights_sum_pos bones pos hb)]

/-- C4: for every vertex of a nonempty position list, the 4 weights the
skin-weight solver emits against the generated bone set sum to 1 within
1e-5 (in the real-number model the normalized sum is exactly 1; the
flattened solver output is the concatenation of the per-vertex rows). -/
theorem c4_weights_sum_to_one (bounds : (ℝ × ℝ × ℝ) × (ℝ × ℝ × ℝ))
    (positions : List (ℝ × ℝ × ℝ)) (hpos : positions ≠ []) (p : ℝ × ℝ × ℝ)
    (hp : p ∈ positions) :
    (compute_skin_weights positions (create_humanoid_skeleton bounds)).2 =
      (positions.map (fun q =>
        (vertex_weights (create_humanoid_skeleton bounds) q).2)).flatten ∧
    |((vertex_weights (create_humanoid_skeleton bounds) p).2).sum - 1| ≤ 1e-5 := by
  refine ⟨rfl, ?_⟩
  have hb : create_humanoid_skeleton bounds ≠ [] := by
    have h20 : (create_humanoid_skeleton bounds).length = 20 := rfl
    exact List.ne_nil_of_length_pos (by omega)
  have htot := vw_top_weights_sum_pos (create_humanoid_skeleton bounds) p hb
  rw [vertex_weights_snd_eq _ _ hb, list_sum_map_div, div_self (ne_of_gt htot)]
  norm_num

/-- C4 witness: the triangle scenario's first vertex. -/
theorem c4_weights_sum_to_one_witness :
    triPositions ≠ [] ∧
    |((vertex_weights (create_humanoid_skeleton ((0, 0, 0), (1, 1, 0)))
        ((0 : ℝ), (0 : ℝ), (0 : ℝ))).2).sum - 1| ≤ 1e-5 := by
  refine ⟨by simp [triPositions], ?_⟩
  exact (c4_weights_sum_to_one ((0, 0, 0), (1, 1, 0)) triPositions (by simp [triPositions])
    ((0 : ℝ), (0 : ℝ), (0 : ℝ)) (by simp [triPositions])).2

/-- C9: every unnormalized inverse-distance weight is strictly positive, so
the selected total is strictly positive for any nonempty bone set and the
normalization branch of the solver is always taken (the unnormalized
degenerate case is unreachable). -/
theorem c9_normalization_always_taken (bones : List Bone) (pos : ℝ × ℝ × ℝ)
    (hb : bones ≠ []) :
    (∀ w ∈ vw_inv_dist bones pos, 0 < w) ∧
    0 < (vw_top_weights bones pos).sum ∧
    (vertex_weights bones pos).2 =
      (vw_top_weights bones pos).map (fun w => w / (vw_top_weights bones pos).sum) := by
  exact ⟨vw_inv_dist_pos bones pos, vw_top_weights_sum_pos bones pos hb,
    vertex_weights_snd_eq bones pos hb⟩

/-- C9 witness: the generated skeleton at the triangle bounds and the
origin vertex. -/
theorem c9_normalization_always_taken_witness :
    create_humanoid_skeleton ((0, 0, 0), (1, 1, 0)) ≠ [] ∧
    0 < (vw_top_weights (create_humanoid_skeleton ((0, 0, 0), (1, 1, 0)))
      ((0 : ℝ), (0 : ℝ), (0 : ℝ))).sum := by
  have hb : create_humanoid_skeleton ((0, 0, 0), (1, 1, 0)) ≠ [] := by
    have h20 : (create_humanoid_skeleton ((0, 0, 0), (1, 1, 0))).length = 20 := rfl
    exact List.ne_nil_of_length_pos (by omega)
  exact ⟨hb, (c9_normalization_always_taken _ _ hb).2.1⟩

set_option maxHeartbeats 800000 in
/-- C10: against the generated bone set, the solver emits exactly 4 joint
indices per vertex, pairwise distinct, with the weights in non-increasing
order (slot 0 largest), and the selected indices are the 4 bones of
largest inverse-distance weight. -/
theorem c10_top_four_selection (bounds : (ℝ × ℝ × ℝ) × (ℝ × ℝ × ℝ)) (pos : ℝ × ℝ × ℝ) :
    (vertex_weights (create_humanoid_skeleton bounds) pos).1 =
      vw_top_indices (create_humanoid_skeleton bounds) pos ∧
    (vw_top_indices (create_humanoid_skeleton bounds) pos).length = 4 ∧
    (vw_top_indices (create_humanoid_skeleton bounds) pos).Nodup ∧
    List.Pairwise (fun a b => b ≤ a) ((vertex_weights (create_humanoid_skeleton bounds) pos).2) ∧
    (∀ j ∈ vw_top_indices (create_humanoid_skeleton bounds) pos,
      ∀ k < (create_humanoid_skeleton bounds).length,
        k ∉ vw_top_indices (create_humanoid_skeleton bounds) pos →
        (vw_inv_dist (create_humanoid_skeleton bounds) pos).getD k 0 ≤
          (vw_inv_dist (create_humanoid_skeleton bounds) pos).getD j 0) := by
  set bones := create_humanoid_skeleton bounds with hbones
  have h20 : bones.length = 20 := rfl
  have hb : bones ≠ [] := List.ne_nil_of_length_pos (by omega)
  have htot := vw_top_weights_sum_pos bones pos hb
  refine ⟨?_, ?_, vw_top_indices_nodup bones pos, ?_, ?_⟩
  · simp only [vertex_weights]
    have : ∀ j ∈ vw_top_indices bones pos, j % 256 = j := by
      intro j hj
      exact Nat.mod_eq_of_lt (lt_of_lt_of_le (vw_top_indices_mem bones pos j hj) (by omega))
    rw [List.map_congr_left (fun j hj => this j hj)]
    exact List.map_id _
  · rw [vw_top_indices_length, h20]
    rfl
  · rw [vertex_weights_snd_eq bones pos hb]
    exact (vw_top_weights_antitone bones pos).map _
      (fun a b h => div_le_div_of_nonneg_right h htot.le)
  · intro j hj k hk hknot
    exact vw_top_indices_largest bones pos j k hj hk hknot

end Glb

namespace Glb

theorem frame_times_head (n : Nat) : (frame_times n).head? = some 0 := by
  rw [frame_times, List.range_succ_eq_map]
  simp

theorem frame_times_acc_facts (n : Nat) (bv : Nat) :
    (frame_times n).head? = some 0 ∧ List.Chain' (· < ·) (frame_times n) ∧
    (mkTimeAccessor bv (frame_times n)).minBound = some [(frame_times n).headD 0] ∧
    (mkTimeAccessor bv (frame_times n)).maxBound = some [(frame_times n).getLastD 0] := by
  have hh := frame_times_head n
  have hc := frame_times_chain n
  obtain ⟨x, r, hxr⟩ : ∃ x r, frame_times n = x :: r := by
    cases hft : frame_times n with
    | nil => rw [hft] at hh; simp at hh
    | cons x r => exact ⟨x, r, rfl⟩
  have hle : List.Chain' (· ≤ ·) (x :: r) := by
    rw [hxr] at hc
    exact hc.imp (fun a b hab => le_of_lt hab)
  refine ⟨hh, hc, ?_, ?_⟩
  · simp only [mkTimeAccessor, hxr, pyMin_of_sorted x r hle, List.headD_cons]
  · simp only [mkTimeAccessor, hxr, pyMax_of_sorted x r hle]

/-- C5: every animation channel's time array starts at 0 and is strictly
increasing, and the time accessor the pipeline appends for it declares
`min` equal to the first sample and `max` equal to the last sample. -/
theorem c5_channel_time_arrays (bones : List Bone) (mesh_height : ℝ)
    (clip : String × List ChannelSpec) (hclip : clip ∈ create_animations bones mesh_height)
    (ch : ChannelSpec) (hch : ch ∈ clip.2) (bv : Nat) :
    ch.2.2.1.head? = some 0 ∧ List.Chain' (· < ·) ch.2.2.1 ∧
    (mkTimeAccessor bv ch.2.2.1).minBound = some [ch.2.2.1.headD 0] ∧
    (mkTimeAccessor bv ch.2.2.1).maxBound = some [ch.2.2.1.getLastD 0] := by
  have htimes : ∃ n, ch.2.2.1 = frame_times n := by
    simp only [create_animations, List.mem_cons, List.not_mem_nil, or_false] at hclip
    rcases hclip with h | h | h <;> subst h <;>
      simp only [List.mem_cons, List.not_mem_nil, or_false] at hch
    · subst hch
      exact ⟨idle_frames, rfl⟩
    · rcases hch with h | h | h | h | h <;> subst h <;> exact ⟨walk_frames, rfl⟩
    · rcases hch with h | h | h <;> subst h <;> exact ⟨attack_frames, rfl⟩
  obtain ⟨n, hn⟩ := htimes
  rw [hn]
  exact frame_times_acc_facts n bv

/-- C5 witness: the Idle clip's spine channel. -/
theorem c5_channel_time_arrays_witness :
    idleClip ∈ create_animations [] 0 ∧
    (idleClip.2.headD (0, .rotation, [], [])).2.2.1.head? = some 0 := by
  have hclip : idleClip ∈ create_animations [] 0 := by
    simp [create_animations, idleClip]
  refine ⟨hclip, ?_⟩
  exact (c5_channel_time_arrays [] 0 idleClip hclip _ (by simp [idleClip]) 0).1

/-- C6: the byte offset returned by every `add_to_buffer` call is a
multiple of 4, and the padded payload length `write_glb` writes into the
output container's binary-chunk header is a multiple of 4. -/
theorem c6_alignment :
    (∀ (bin_data : List BufByte) (data : BufData),
      (add_to_buffer bin_data data).2.1 % 4 = 0) ∧
    (∀ bin : List Nat, (padZeros4 bin).length % 4 = 0) := by
  constructor
  · intro bin_data data
    simp only [add_to_buffer, List.length_append, List.length_replicate]
    omega
  · intro bin
    simp only [padZeros4, List.length_append, List.length_replicate]
    omega

/-- C7: in the generated skeleton the root (index 0) has parent −1, every
other bone has a nonnegative parent index, and every nonnegative parent
index is strictly below the bone's own index — the table is a tree rooted
at index 0 in topologically sorted order. -/
theorem c7_topological_order (bounds : (ℝ × ℝ × ℝ) × (ℝ × ℝ × ℝ)) (i : Nat)
    (hi : i < (create_humanoid_skeleton bounds).length) :
    (i = 0 → ((create_humanoid_skeleton bounds).getD i boneDefault).parent = -1) ∧
    (0 < i → 0 ≤ ((create_humanoid_skeleton bounds).getD i boneDefault).parent) ∧
    (0 ≤ ((create_humanoid_skeleton bounds).getD i boneDefault).parent →
      ((create_humanoid_skeleton bounds).getD i boneDefault).parent.toNat < i) := by
  have h20 : (create_humanoid_skeleton bounds).length = 20 := rfl
  rw [h20] at hi
  interval_cases i <;>
    refine ⟨fun h => ?_, fun h => ?_, fun h => ?_⟩ <;>
    first
      | exact of_decide_eq_true rfl
      | exact absurd h (of_decide_eq_false rfl)

/-- C7 witness: bone 5 (Head) has parent 4 < 5. -/
theorem c7_topological_order_witness :
    5 < (create_humanoid_skeleton ((0, 0, 0), (1, 1, 0))).length ∧
    (0 ≤ ((create_humanoid_skeleton ((0, 0, 0), (1, 1, 0))).getD 5 boneDefault).parent →
      ((create_humanoid_skeleton ((0, 0, 0), (1, 1, 0))).getD 5 boneDefault).parent.toNat < 5) := by
  have h5 : 5 < (create_humanoid_skeleton ((0, 0, 0), (1, 1, 0))).length := by
    have h20 : (create_humanoid_skeleton ((0, 0, 0), (1, 1, 0))).length = 20 := rfl
    omega
  exact ⟨h5, (c7_topological_order ((0, 0, 0), (1, 1, 0)) 5 h5).2.2⟩

/-- C8: a document whose node list contains no mesh-referencing node makes
the pipeline fail at the locate-mesh stage, and no later stage runs and no
output is produced (any encoding continuation still yields the error). -/
theorem c8_no_mesh_fails (gltf : Gltf) (positions : List (ℝ × ℝ × ℝ)) (bin0 : List BufByte)
    (h : ∀ n ∈ gltf.nodes, n.mesh = none) :
    add_skeleton_core gltf positions bin0 = .error .noMesh ∧
    ∀ (α : Type) (encode : Gltf × List BufByte → α),
      pipeline_output gltf positions bin0 encode = .error .noMesh := by
  have hfind : gltf.nodes.findIdx? (fun n => n.mesh.isSome) = none := by
    rw [List.findIdx?_eq_none_iff]
    intro x hx
    simp [h x hx]
  have hcore : add_skeleton_core gltf positions bin0 = .error .noMesh := by
    rw [add_skeleton_core, hfind]
  exact ⟨hcore, fun α encode => by rw [pipeline_output, hcore]; rfl⟩

/-- C8 witness: a one-node document without a mesh reference. -/
theorem c8_no_mesh_fails_witness :
    (∀ n ∈ ({ nodes := [{}] } : Gltf).nodes, n.mesh = none) ∧
    add_skeleton_core { nodes := [{}] } [] [] = .error .noMesh := by
  have h : ∀ n ∈ ({ nodes := [{}] } : Gltf).nodes, n.mesh = none := by
    intro n hn
    rw [List.mem_singleton] at hn
    subst hn
    rfl
  exact ⟨h, (c8_no_mesh_fails { nodes := [{}] } [] [] h).1⟩

end Glb
